import Mathlib

/-!
Verification of the multi-unit damage-analysis aggregation pipeline of the
Vehicle-Damage-Detection repository. Definitions are shallow embeddings of
`src/components/DemoSection.tsx` (data contracts, the two result combiners,
and the sequential batch orchestration loops) and of the response-parsing
step of `supabase/functions/analyze-damage/index.ts`.
-/

/-- Severity labels of the union type at DemoSection.tsx line 20:
"None" | "Minor" | "Moderate" | "Severe". -/
inductive Severity where
  | none
  | minor
  | moderate
  | severe
deriving DecidableEq

/-- String form of a severity label, as the value appears in the TS source. -/
def Severity.label : Severity → String
  | .none => "None"
  | .minor => "Minor"
  | .moderate => "Moderate"
  | .severe => "Severe"

/-- Embeds the `severityOrder` object literal of DemoSection.tsx lines 332/459:
None maps to 0, Minor to 1, Moderate to 2, Severe to 3. -/
def severityOrder : Severity → Nat
  | .none => 0
  | .minor => 1
  | .moderate => 2
  | .severe => 3

/-- Interface `DamageItem`, DemoSection.tsx lines 10-15. The TS `severity`
field ranges over the three damaged labels only; the embedding reuses the
full `Severity` type, which is a superset. -/
structure DamageItem where
  type : String
  location : String
  severity : Severity
  description : String
deriving DecidableEq

/-- The `{min, max, currency}` cost shape of `estimatedRepairCost`,
DemoSection.tsx lines 24-28. Costs are integer rupee amounts. -/
structure CostRange where
  min : Int
  max : Int
  currency : String
deriving DecidableEq

/-- Interface `AnalysisResult`, DemoSection.tsx lines 17-32. -/
structure AnalysisResult where
  hasVehicle : Bool
  hasDamage : Bool
  overallSeverity : Severity
  confidenceScore : Int
  damages : List DamageItem
  affectedAreas : List String
  estimatedRepairCost : CostRange
  recommendations : List String
  summary : String
  annotatedImage : Option String
deriving DecidableEq

/-- Interface `FrameAnalysisResult extends AnalysisResult`,
DemoSection.tsx lines 34-37. -/
structure FrameAnalysisResult extends AnalysisResult where
  frameIndex : Nat
  frameImage : String
deriving DecidableEq

/-- The anonymous `DamageItem & \x7b frameIndex: number \x7d` type used for the
entries of `allDamages`, DemoSection.tsx line 44. -/
structure TaggedDamage extends DamageItem where
  frameIndex : Nat
deriving DecidableEq

/-- Interface `CombinedAnalysisResult`, DemoSection.tsx lines 39-55. -/
structure CombinedAnalysisResult where
  totalFramesAnalyzed : Nat
  framesWithDamage : Nat
  overallSeverity : Severity
  averageConfidence : Int
  allDamages : List TaggedDamage
  uniqueDamageTypes : List String
  affectedAreas : List String
  estimatedRepairCost : CostRange
  recommendations : List String
  summary : String
  frameResults : List FrameAnalysisResult
deriving DecidableEq

/-- JavaScript `Math.max(...list)` as used at DemoSection.tsx lines 338-339
and 465-466. The combiners only ever apply it to a non-empty batch (the
orchestrators guard with `imageResults.length === 0`); the `[]` branch, where
JS would produce -Infinity, is dead code in this development. -/
def jsMax : List Int → Int
  | [] => 0
  | x :: xs => xs.foldl max x

/-- JavaScript `[...new Set(list)]` (DemoSection.tsx lines 326, 329, 343):
deduplication keeping the first occurrence of each element, in order. -/
def jsDedup (l : List String) : List String :=
  l.foldl (fun acc x => if x ∈ acc then acc else acc ++ [x]) []

/-- JavaScript `Math.round`: round half toward positive infinity. -/
def jsRound (q : ℚ) : Int :=
  Int.floor (q + 1 / 2)

/-- The ternary in the severity fold, DemoSection.tsx line 334/461:
`severityOrder[s] > severityOrder[mx] ? s : mx`. -/
def sevStep (mx s : Severity) : Severity :=
  if severityOrder s > severityOrder mx then s else mx

/-- Function `combineImageResults`, DemoSection.tsx lines 308-367, transcribed
clause by clause. The source's `f.estimatedRepairCost?.min || 0` guards are
the identity here because the embedded record fields are total (as the TS
interface declares) and costs are integers; likewise `f.recommendations || []`.
The `forEach`/`push` loop building `allDamages` is the in-order concatenation
written as a fold. -/
def combineImageResults (imageResults : List FrameAnalysisResult) : CombinedAnalysisResult :=
  let imagesWithDamage := (imageResults.filter fun f => f.hasDamage).length
  let confSum : Int := imageResults.foldl (fun sum f => sum + f.confidenceScore) 0
  let avgConfidence : Int := jsRound ((confSum : ℚ) / (imageResults.length : ℚ))
  let allDamages : List TaggedDamage :=
    imageResults.foldl
      (fun acc image =>
        acc ++ image.damages.map fun damage =>
          { toDamageItem := damage, frameIndex := image.frameIndex })
      []
  let uniqueDamageTypes := jsDedup (allDamages.map fun d => d.type)
  let affectedAreas := jsDedup (imageResults.flatMap fun f => f.affectedAreas)
  let overallSeverity :=
    imageResults.foldl (fun mx image => sevStep mx image.overallSeverity) Severity.none
  let minCost := jsMax (imageResults.map fun f => f.estimatedRepairCost.min)
  let maxCost := jsMax (imageResults.map fun f => f.estimatedRepairCost.max)
  let currency :=
    match imageResults.find? (fun f => f.estimatedRepairCost.currency != "") with
    | some f => f.estimatedRepairCost.currency
    | none => "INR"
  let recommendations := jsDedup (imageResults.flatMap fun f => f.recommendations)
  let summary :=
    "Comprehensive analysis of " ++ toString imageResults.length ++ " images reveals " ++
    toString imagesWithDamage ++ " image(s) showing vehicle damage. " ++
    "A total of " ++ toString allDamages.length ++ " damage instances were detected across " ++
    toString uniqueDamageTypes.length ++ " damage type(s): " ++
    String.intercalate ", " uniqueDamageTypes ++ ". " ++
    "Affected areas include: " ++ String.intercalate ", " affectedAreas ++
    ". Overall severity is assessed as " ++ overallSeverity.label ++ "."
  { totalFramesAnalyzed := imageResults.length
    framesWithDamage := imagesWithDamage
    overallSeverity := overallSeverity
    averageConfidence := avgConfidence
    allDamages := allDamages
    uniqueDamageTypes := uniqueDamageTypes
    affectedAreas := affectedAreas
    estimatedRepairCost := { min := minCost, max := maxCost, currency := currency }
    recommendations := recommendations
    summary := summary
    frameResults := imageResults }

/-- Function `combineFrameResults`, DemoSection.tsx lines 435-494. The body is
the same computation as `combineImageResults` except that the synthesized
summary says "video frames"/"frame(s)" where the image combiner says
"images"/"image(s)". -/
def combineFrameResults (frameResults : List FrameAnalysisResult) : CombinedAnalysisResult :=
  let framesWithDamage := (frameResults.filter fun f => f.hasDamage).length
  let confSum : Int := frameResults.foldl (fun sum f => sum + f.confidenceScore) 0
  let avgConfidence : Int := jsRound ((confSum : ℚ) / (frameResults.length : ℚ))
  let allDamages : List TaggedDamage :=
    frameResults.foldl
      (fun acc frame =>
        acc ++ frame.damages.map fun damage =>
          { toDamageItem := damage, frameIndex := frame.frameIndex })
      []
  let uniqueDamageTypes := jsDedup (allDamages.map fun d => d.type)
  let affectedAreas := jsDedup (frameResults.flatMap fun f => f.affectedAreas)
  let overallSeverity :=
    frameResults.foldl (fun mx frame => sevStep mx frame.overallSeverity) Severity.none
  let minCost := jsMax (frameResults.map fun f => f.estimatedRepairCost.min)
  let maxCost := jsMax (frameResults.map fun f => f.estimatedRepairCost.max)
  let currency :=
    match frameResults.find? (fun f => f.estimatedRepairCost.currency != "") with
    | some f => f.estimatedRepairCost.currency
    | none => "INR"
  let recommendations := jsDedup (frameResults.flatMap fun f => f.recommendations)
  let summary :=
    "Comprehensive analysis of " ++ toString frameResults.length ++ " video frames reveals " ++
    toString framesWithDamage ++ " frame(s) showing vehicle damage. " ++
    "A total of " ++ toString allDamages.length ++ " damage instances were detected across " ++
    toString uniqueDamageTypes.length ++ " damage type(s): " ++
    String.intercalate ", " uniqueDamageTypes ++ ". " ++
    "Affected areas include: " ++ String.intercalate ", " affectedAreas ++
    ". Overall severity is assessed as " ++ overallSeverity.label ++ "."
  { totalFramesAnalyzed := frameResults.length
    framesWithDamage := framesWithDamage
    overallSeverity := overallSeverity
    averageConfidence := avgConfidence
    allDamages := allDamages
    uniqueDamageTypes := uniqueDamageTypes
    affectedAreas := affectedAreas
    estimatedRepairCost := { min := minCost, max := maxCost, currency := currency }
    recommendations := recommendations
    summary := summary
    frameResults := frameResults }

/-! Helper lemmas about `jsMax` (the spread `Math.max`). -/

theorem foldl_max_le_self (xs : List Int) : ∀ a : Int, a ≤ xs.foldl max a := by
  induction xs with
  | nil => intro a; exact le_refl a
  | cons b xs ih =>
    intro a
    exact le_trans (le_max_left a b) (ih (max a b))

theorem le_foldl_max_of_mem (xs : List Int) :
    ∀ (a x : Int), x ∈ xs → x ≤ xs.foldl max a := by
  induction xs with
  | nil => intro a x hx; exact absurd hx (List.not_mem_nil x)
  | cons b xs ih =>
    intro a x hx
    rcases List.mem_cons.mp hx with h | h
    · subst h
      exact le_trans (le_max_right a x) (foldl_max_le_self xs (max a x))
    · exact ih (max a b) x h

theorem foldl_max_eq_or_mem (xs : List Int) :
    ∀ a : Int, xs.foldl max a = a ∨ xs.foldl max a ∈ xs := by
  induction xs with
  | nil => intro a; exact Or.inl rfl
  | cons b xs ih =>
    intro a
    rcases ih (max a b) with h | h
    · rcases max_choice a b with hm | hm
      · exact Or.inl (by rw [List.foldl_cons, h, hm])
      · refine Or.inr (List.mem_cons.mpr (Or.inl ?_))
        rw [List.foldl_cons, h, hm]
    · exact Or.inr (List.mem_cons.mpr (Or.inr h))

theorem le_jsMax_of_mem {xs : List Int} {x : Int} (hx : x ∈ xs) : x ≤ jsMax xs := by
  cases xs with
  | nil => exact absurd hx (List.not_mem_nil x)
  | cons b xs =>
    rcases List.mem_cons.mp hx with h | h
    · subst h; exact foldl_max_le_self xs x
    · exact le_foldl_max_of_mem xs b x h

theorem jsMax_mem {xs : List Int} (h : xs ≠ []) : jsMax xs ∈ xs := by
  cases xs with
  | nil => exact absurd rfl h
  | cons b xs =>
    rcases foldl_max_eq_or_mem xs b with h' | h'
    · exact List.mem_cons.mpr (Or.inl h')
    · exact List.mem_cons.mpr (Or.inr h')

/-! Helper lemmas about the severity fold. -/

theorem severityOrder_inj : ∀ s t : Severity, severityOrder s = severityOrder t → s = t := by
  intro s t h
  cases s <;> cases t <;> simp_all [severityOrder]

theorem severityOrder_sevStep_left (mx s : Severity) :
    severityOrder mx ≤ severityOrder (sevStep mx s) := by
  unfold sevStep
  split
  · exact Nat.le_of_lt (by assumption)
  · exact le_refl _

theorem severityOrder_sevStep_right (mx s : Severity) :
    severityOrder s ≤ severityOrder (sevStep mx s) := by
  unfold sevStep
  split
  · exact le_refl _
  · exact Nat.le_of_not_lt (by assumption)

theorem sevFold_le_self (l : List Severity) :
    ∀ mx : Severity, severityOrder mx ≤ severityOrder (l.foldl sevStep mx) := by
  induction l with
  | nil => intro mx; exact le_refl _
  | cons s l ih =>
    intro mx
    exact le_trans (severityOrder_sevStep_left mx s) (ih (sevStep mx s))

theorem le_sevFold_of_mem (l : List Severity) :
    ∀ (mx s : Severity), s ∈ l → severityOrder s ≤ severityOrder (l.foldl sevStep mx) := by
  induction l with
  | nil => intro mx s hs; exact absurd hs (List.not_mem_nil s)
  | cons t l ih =>
    intro mx s hs
    rcases List.mem_cons.mp hs with h | h
    · subst h
      exact le_trans (severityOrder_sevStep_right mx s) (sevFold_le_self l (sevStep mx s))
    · exact ih (sevStep mx t) s h

theorem sevFold_eq_or_mem (l : List Severity) :
    ∀ mx : Severity, l.foldl sevStep mx = mx ∨ l.foldl sevStep mx ∈ l := by
  induction l with
  | nil => intro mx; exact Or.inl rfl
  | cons s l ih =>
    intro mx
    rcases ih (sevStep mx s) with h | h
    · by_cases hc : severityOrder s > severityOrder mx
      · refine Or.inr (List.mem_cons.mpr (Or.inl ?_))
        rw [List.foldl_cons, h]
        simp [sevStep, hc]
      · refine Or.inl ?_
        rw [List.foldl_cons, h]
        simp [sevStep, hc]
    · exact Or.inr (List.mem_cons.mpr (Or.inr h))

/-- The severity fold over unit results equals the fold over the mapped
severity labels. -/
theorem sevFold_over_results (rs : List FrameAnalysisResult) :
    rs.foldl (fun mx image => sevStep mx image.overallSeverity) Severity.none
      = (rs.map fun r => r.overallSeverity).foldl sevStep Severity.none := by
  rw [List.foldl_map]

/-! Lemmas about the `allDamages` accumulation of the combiners. -/

/-- The `forEach`/`push` fold flattening damages is `flatMap` plus the initial
accumulator. -/
theorem allDamagesFold_eq_append (rs : List FrameAnalysisResult) :
    ∀ init : List TaggedDamage,
      rs.foldl
        (fun acc image =>
          acc ++ image.damages.map fun damage =>
            { toDamageItem := damage, frameIndex := image.frameIndex })
        init
      = init ++ rs.flatMap (fun image =>
          image.damages.map fun damage =>
            ({ toDamageItem := damage, frameIndex := image.frameIndex } : TaggedDamage)) := by
  induction rs with
  | nil => intro init; simp
  | cons r rs ih =>
    intro init
    simp [List.foldl_cons, List.flatMap_cons, ih, List.append_assoc]

/-- The `allDamages` field of the image combiner, unfolded to `flatMap`. -/
theorem combineImageResults_allDamages (rs : List FrameAnalysisResult) :
    (combineImageResults rs).allDamages
      = rs.flatMap (fun image =>
          image.damages.map fun damage =>
            ({ toDamageItem := damage, frameIndex := image.frameIndex } : TaggedDamage)) := by
  have h := allDamagesFold_eq_append rs []
  simpa using h

theorem allDamages_length (rs : List FrameAnalysisResult) :
    (combineImageResults rs).allDamages.length = (rs.map fun r => r.damages.length).sum := by
  rw [combineImageResults_allDamages]
  simp only [List.length_flatMap]
  have h : (List.length ∘ fun image : FrameAnalysisResult =>
      image.damages.map fun damage =>
        ({ toDamageItem := damage, frameIndex := image.frameIndex } : TaggedDamage))
      = fun r : FrameAnalysisResult => r.damages.length := by
    funext r
    simp [Function.comp]
  rw [h]

theorem allDamages_mem (rs : List FrameAnalysisResult) (o : TaggedDamage)
    (ho : o ∈ (combineImageResults rs).allDamages) :
    ∃ r ∈ rs, o.frameIndex = r.frameIndex := by
  rw [combineImageResults_allDamages] at ho
  rcases List.mem_flatMap.mp ho with ⟨r, hr, hmem⟩
  rcases List.mem_map.mp hmem with ⟨d, _, hd⟩
  exact ⟨r, hr, by rw [← hd]⟩

/-! Embedding of the sequential batch orchestrators `analyzeAllImages`
(DemoSection.tsx lines 242-306) and `analyzeAllFrames` (lines 369-433).
The external call `supabase.functions.invoke` is modelled by a per-unit
outcome. -/

/-- Outcome of one `supabase.functions.invoke('analyze-damage', ...)` call as
the orchestration loop distinguishes them: a transport-level `error` (the
`if (error) ... continue` branch), a response whose `data` is absent or
carries a truthy `error` field (fails the `data && !data.error` test), or a
successful payload. -/
inductive CallOutcome where
  | invokeError
  | dataError
  | success (d : AnalysisResult)
deriving DecidableEq

/-- True exactly on the `success` outcome. -/
def CallOutcome.isSuccess : CallOutcome → Bool
  | .success _ => true
  | _ => false

/-- Component state touched by the orchestration loop: the
`currentAnalyzingFrame` counter, the `analysisProgress` percentage, and the
accumulated per-unit results array. -/
structure OrchState where
  currentAnalyzingFrame : Nat
  analysisProgress : ℚ
  acc : List FrameAnalysisResult
deriving DecidableEq

/-- State at loop entry: both counters were just reset to 0
(DemoSection.tsx lines 246-247) and the results array is empty (line 251). -/
def st0 : OrchState := { currentAnalyzingFrame := 0, analysisProgress := 0, acc := [] }

/-- The progress expression `((i + 1) / total) * 100` of DemoSection.tsx
lines 274/401, over exact rationals. -/
def progressPct (n i : Nat) : ℚ :=
  (((i + 1 : Nat) : ℚ) / (n : ℚ)) * 100

/-- One iteration of the `for (let i = 0; ...)` loop body, DemoSection.tsx
lines 254-275 (identically lines 381-402): set the counter to `i + 1`;
on a transport error `continue` (which skips both the push and the progress
update); otherwise push the result on success, then update the progress. -/
def orchStep (n : Nat) (images : List String) (i : Nat) (st : OrchState)
    (oc : CallOutcome) : OrchState :=
  let st := { st with currentAnalyzingFrame := i + 1 }
  match oc with
  | .invokeError => st
  | .dataError => { st with analysisProgress := progressPct n i }
  | .success d =>
      { st with
        acc := st.acc ++
          [{ toAnalysisResult := d, frameIndex := i, frameImage := images.getD i "" }],
        analysisProgress := progressPct n i }

/-- States observable after each loop iteration, starting at index `i`. -/
def orchTraceFrom (n : Nat) (images : List String) : Nat → OrchState → List CallOutcome → List OrchState
  | _, _, [] => []
  | i, st, oc :: rest =>
    let st1 := orchStep n images i st oc
    st1 :: orchTraceFrom n images (i + 1) st1 rest

/-- States observable after each iteration of a full run of the loop. -/
def orchTrace (images : List String) (ocs : List CallOutcome) : List OrchState :=
  orchTraceFrom images.length images 0 st0 ocs

/-- Final loop state, starting at index `i`. -/
def orchFinalFrom (n : Nat) (images : List String) : Nat → OrchState → List CallOutcome → OrchState
  | _, st, [] => st
  | i, st, oc :: rest => orchFinalFrom n images (i + 1) (orchStep n images i st oc) rest

/-- Results pushed by a run of the loop starting at index `i`: one
`FrameAnalysisResult` per successful call, stamped with the unit's original
index and source image. -/
def successResultsFrom (images : List String) : Nat → List CallOutcome → List FrameAnalysisResult
  | _, [] => []
  | i, .success d :: rest =>
      { toAnalysisResult := d, frameIndex := i, frameImage := images.getD i "" }
        :: successResultsFrom images (i + 1) rest
  | i, _ :: rest => successResultsFrom images (i + 1) rest

/-- Results pushed by a full run of the loop. -/
def successResults (images : List String) (ocs : List CallOutcome) : List FrameAnalysisResult :=
  successResultsFrom images 0 ocs

/-- Original positions of the successful units. -/
def successIndicesFrom : Nat → List CallOutcome → List Nat
  | _, [] => []
  | i, .success _ :: rest => i :: successIndicesFrom (i + 1) rest
  | i, _ :: rest => successIndicesFrom (i + 1) rest

/-- Original positions of the successful units of a full run. -/
def successIndices (ocs : List CallOutcome) : List Nat :=
  successIndicesFrom 0 ocs

/-- Function `analyzeAllImages`, DemoSection.tsx lines 242-306, reduced to its
observable outcome: `none` models the `imageResults.length === 0` branch
(lines 277-284) where a batch-level failure toast is shown, `setCombinedResults`
is never called (the combined-result state keeps the `null` written at line
248), and the aggregator is never invoked; `some c` models lines 287-288 where
the aggregator's report `c` is stored. -/
def analyzeAllImages (images : List String) (ocs : List CallOutcome) :
    Option CombinedAnalysisResult :=
  let final := orchFinalFrom images.length images 0 st0 ocs
  if final.acc.isEmpty then none else some (combineImageResults final.acc)

/-- Function `analyzeAllFrames`, DemoSection.tsx lines 369-433: the same loop
over video frames, handing the accumulated results to `combineFrameResults`. -/
def analyzeAllFrames (frames : List String) (ocs : List CallOutcome) :
    Option CombinedAnalysisResult :=
  let final := orchFinalFrom frames.length frames 0 st0 ocs
  if final.acc.isEmpty then none else some (combineFrameResults final.acc)

/-! Lemmas about the orchestration loop. -/

theorem orchStep_current (n : Nat) (images : List String) (i : Nat) (st : OrchState)
    (oc : CallOutcome) : (orchStep n images i st oc).currentAnalyzingFrame = i + 1 := by
  cases oc <;> simp [orchStep]

theorem orchStep_progress_invokeError (n : Nat) (images : List String) (i : Nat)
    (st : OrchState) :
    (orchStep n images i st CallOutcome.invokeError).analysisProgress = st.analysisProgress := by
  simp [orchStep]

theorem orchStep_progress_updated (n : Nat) (images : List String) (i : Nat) (st : OrchState)
    (oc : CallOutcome) (h : oc ≠ CallOutcome.invokeError) :
    (orchStep n images i st oc).analysisProgress = progressPct n i := by
  cases oc with
  | invokeError => exact absurd rfl h
  | dataError => simp [orchStep]
  | success d => simp [orchStep]

theorem orchFinalFrom_acc (n : Nat) (images : List String) :
    ∀ (ocs : List CallOutcome) (i : Nat) (st : OrchState),
      (orchFinalFrom n images i st ocs).acc = st.acc ++ successResultsFrom images i ocs := by
  intro ocs
  induction ocs with
  | nil => intro i st; simp [orchFinalFrom, successResultsFrom]
  | cons oc rest ih =>
    intro i st
    cases oc with
    | invokeError => simp [orchFinalFrom, successResultsFrom, ih, orchStep]
    | dataError => simp [orchFinalFrom, successResultsFrom, ih, orchStep]
    | success d => simp [orchFinalFrom, successResultsFrom, ih, orchStep]

theorem successResultsFrom_map_frameIndex (images : List String) :
    ∀ (ocs : List CallOutcome) (i : Nat),
      (successResultsFrom images i ocs).map (fun r => r.frameIndex) = successIndicesFrom i ocs := by
  intro ocs
  induction ocs with
  | nil => intro i; simp [successResultsFrom, successIndicesFrom]
  | cons oc rest ih =>
    intro i
    cases oc <;> simp [successResultsFrom, successIndicesFrom, ih]

theorem successResultsFrom_frameIndex_lt (images : List String) :
    ∀ (ocs : List CallOutcome) (i : Nat) (r : FrameAnalysisResult),
      r ∈ successResultsFrom images i ocs → r.frameIndex < i + ocs.length := by
  intro ocs
  induction ocs with
  | nil => intro i r hr; simp [successResultsFrom] at hr
  | cons oc rest ih =>
    intro i r hr
    cases oc with
    | invokeError =>
      have h := ih (i + 1) r (by simpa [successResultsFrom] using hr)
      simpa [Nat.add_assoc, Nat.add_comm 1 rest.length] using h
    | dataError =>
      have h := ih (i + 1) r (by simpa [successResultsFrom] using hr)
      simpa [Nat.add_assoc, Nat.add_comm 1 rest.length] using h
    | success d =>
      rw [show successResultsFrom images i (CallOutcome.success d :: rest)
          = { toAnalysisResult := d, frameIndex := i, frameImage := images.getD i "" }
            :: successResultsFrom images (i + 1) rest from rfl] at hr
      rcases List.mem_cons.mp hr with h | h
      · subst h; simp
      · have h2 := ih (i + 1) r h
        simp only [List.length_cons]
        omega

theorem successResultsFrom_of_no_success (images : List String) :
    ∀ (ocs : List CallOutcome) (i : Nat),
      (∀ oc ∈ ocs, oc.isSuccess = false) → successResultsFrom images i ocs = [] := by
  intro ocs
  induction ocs with
  | nil => intro i _; rfl
  | cons oc rest ih =>
    intro i h
    cases oc with
    | success d =>
      have hd := h _ (List.mem_cons_self _ _)
      simp [CallOutcome.isSuccess] at hd
    | invokeError =>
      have : successResultsFrom images i (CallOutcome.invokeError :: rest)
          = successResultsFrom images (i + 1) rest := rfl
      rw [this]
      exact ih (i + 1) fun oc hoc => h oc (List.mem_cons_of_mem _ hoc)
    | dataError =>
      have : successResultsFrom images i (CallOutcome.dataError :: rest)
          = successResultsFrom images (i + 1) rest := rfl
      rw [this]
      exact ih (i + 1) fun oc hoc => h oc (List.mem_cons_of_mem _ hoc)

theorem orchTraceFrom_getD_current (n : Nat) (images : List String) :
    ∀ (ocs : List CallOutcome) (i : Nat) (st : OrchState) (j : Nat), j < ocs.length →
      ((orchTraceFrom n images i st ocs).getD j st0).currentAnalyzingFrame = i + j + 1 := by
  intro ocs
  induction ocs with
  | nil => intro i st j hj; simp at hj
  | cons oc rest ih =>
    intro i st j hj
    cases j with
    | zero =>
      simp [orchTraceFrom, List.getD_cons_zero, orchStep_current]
    | succ k =>
      have hk : k < rest.length := by simpa using hj
      simp only [orchTraceFrom, List.getD_cons_succ]
      rw [ih (i + 1) (orchStep n images i st oc) k hk]
      omega

theorem orchTraceFrom_getD_progress (n : Nat) (images : List String) :
    ∀ (ocs : List CallOutcome) (i : Nat) (st : OrchState) (j : Nat), j < ocs.length →
      ocs.getD j CallOutcome.invokeError ≠ CallOutcome.invokeError →
      ((orchTraceFrom n images i st ocs).getD j st0).analysisProgress = progressPct n (i + j) := by
  intro ocs
  induction ocs with
  | nil => intro i st j hj _; simp at hj
  | cons oc rest ih =>
    intro i st j hj hoc
    cases j with
    | zero =>
      simp only [List.getD_cons_zero] at hoc
      simp [orchTraceFrom, List.getD_cons_zero,
        orchStep_progress_updated n images i st oc hoc]
    | succ k =>
      have hk : k < rest.length := by simpa using hj
      simp only [List.getD_cons_succ] at hoc
      simp only [orchTraceFrom, List.getD_cons_succ]
      rw [ih (i + 1) (orchStep n images i st oc) k hk hoc]
      congr 1
      omega

theorem orchTraceFrom_getD_progress_invoke_zero (n : Nat) (images : List String)
    (ocs : List CallOutcome) (i : Nat) (st : OrchState) (h0 : 0 < ocs.length)
    (hoc : ocs.getD 0 CallOutcome.invokeError = CallOutcome.invokeError) :
    ((orchTraceFrom n images i st ocs).getD 0 st0).analysisProgress = st.analysisProgress := by
  cases ocs with
  | nil => simp at h0
  | cons oc rest =>
    simp only [List.getD_cons_zero] at hoc
    subst hoc
    simp [orchTraceFrom, List.getD_cons_zero, orchStep]

theorem orchTraceFrom_getD_progress_invoke_succ (n : Nat) (images : List String) :
    ∀ (ocs : List CallOutcome) (i : Nat) (st : OrchState) (j : Nat), j + 1 < ocs.length →
      ocs.getD (j + 1) CallOutcome.invokeError = CallOutcome.invokeError →
      ((orchTraceFrom n images i st ocs).getD (j + 1) st0).analysisProgress
        = ((orchTraceFrom n images i st ocs).getD j st0).analysisProgress := by
  intro ocs
  induction ocs with
  | nil => intro i st j hj _; simp at hj
  | cons oc rest ih =>
    intro i st j hj hoc
    cases j with
    | zero =>
      simp only [List.getD_cons_succ] at hoc
      simp only [orchTraceFrom, List.getD_cons_succ, List.getD_cons_zero]
      exact orchTraceFrom_getD_progress_invoke_zero n images rest (i + 1)
        (orchStep n images i st oc) (by simpa using hj) hoc
    | succ k =>
      have hk : k + 1 < rest.length := by simpa using hj
      simp only [List.getD_cons_succ] at hoc
      simp only [orchTraceFrom, List.getD_cons_succ]
      exact ih (i + 1) (orchStep n images i st oc) k hk hoc

/-! Embedding of the response-parsing step of the serve handler,
`supabase/functions/analyze-damage/index.ts`. -/

/-- Fallback payload substituted when `JSON.parse` throws, index.ts lines
164-174, transcribed verbatim. Note that this literal sets
`currency: "USD"` in the source, even though the system prompt in the same
file (lines 63, 77, 90, 95) fixes the currency of every analysis payload to
"INR" and the front-end default (DemoSection.tsx line 340) is also "INR". -/
def parseFallbackResult : AnalysisResult :=
  { hasVehicle := false
    hasDamage := false
    overallSeverity := Severity.none
    confidenceScore := 0
    damages := []
    affectedAreas := []
    estimatedRepairCost := { min := 0, max := 0, currency := "USD" }
    recommendations := ["Unable to analyze image. Please try with a clearer image."]
    summary := "Could not process the image. Please upload a clear image."
    annotatedImage := Option.none }

/-- The response-parsing step of the serve handler, index.ts lines 153-175:
`JSON.parse` is applied to the code-fence-stripped AI response text inside a
`try/catch`, and the `catch` substitutes the fixed fallback payload instead
of raising. JSON parsing of the stripped body is external text processing,
so its outcome is passed in as an `Option`; `none` is the unparseable
(throwing) case. -/
def parseAnalysisResult (parsed : Option AnalysisResult) : AnalysisResult :=
  match parsed with
  | some r => r
  | none => parseFallbackResult

/-! Concrete payloads used by the witness and counterexample instances. -/

/-- A concrete damage observation. -/
def exDamage : DamageItem :=
  { type := "dent", location := "front bumper", severity := Severity.moderate,
    description := "Visible dent on the bumper" }

/-- A concrete unit result with cost range 5000-25000. -/
def exUnitA : FrameAnalysisResult :=
  { hasVehicle := true, hasDamage := false, overallSeverity := Severity.minor,
    confidenceScore := 90, damages := [], affectedAreas := ["front bumper"],
    estimatedRepairCost := { min := 5000, max := 25000, currency := "INR" },
    recommendations := ["Repair soon."], summary := "", annotatedImage := Option.none,
    frameIndex := 0, frameImage := "" }

/-- A concrete unit result with cost range 25000-100000 and one observation. -/
def exUnitB : FrameAnalysisResult :=
  { hasVehicle := true, hasDamage := true, overallSeverity := Severity.severe,
    confidenceScore := 80, damages := [exDamage], affectedAreas := ["hood"],
    estimatedRepairCost := { min := 25000, max := 100000, currency := "INR" },
    recommendations := ["Visit a garage."], summary := "", annotatedImage := Option.none,
    frameIndex := 1, frameImage := "" }

/-- A concrete successful boundary payload with one observation. -/
def cData : AnalysisResult :=
  { hasVehicle := true, hasDamage := true, overallSeverity := Severity.moderate,
    confidenceScore := 70, damages := [exDamage], affectedAreas := ["hood"],
    estimatedRepairCost := { min := 10000, max := 50000, currency := "INR" },
    recommendations := [], summary := "", annotatedImage := Option.none }

/-- Batch of four images for the partial-failure scenario. -/
def exImages4 : List String := ["img0", "img1", "img2", "img3"]

/-- Outcomes where units 1 and 3 fail at the Analysis Client. -/
def exOcs4 : List CallOutcome :=
  [CallOutcome.success cData, CallOutcome.invokeError,
   CallOutcome.success cData, CallOutcome.invokeError]

/-! Generic consequences of the cost roll-up. -/

theorem le_jsMax_map (f : FrameAnalysisResult → Int) (rs : List FrameAnalysisResult)
    (r : FrameAnalysisResult) (hr : r ∈ rs) : f r ≤ jsMax (rs.map f) :=
  le_jsMax_of_mem (List.mem_map_of_mem f hr)

theorem exists_jsMax_map (f : FrameAnalysisResult → Int) (rs : List FrameAnalysisResult)
    (h : rs ≠ []) : ∃ r ∈ rs, jsMax (rs.map f) = f r := by
  have hne : rs.map f ≠ [] := by
    intro hc
    exact h (List.map_eq_nil_iff.mp hc)
  rcases List.mem_map.mp (jsMax_mem hne) with ⟨r, hr, heq⟩
  exact ⟨r, hr, heq.symm⟩

/-- C1: For every non-empty batch of unit results, the combined report's
estimated-cost minimum is the maximum over units of the per-unit cost minima
and its maximum is the maximum over units of the per-unit cost maxima — for
both the multi-image aggregator and the video-frame aggregator. -/
theorem C1_combined_cost_is_max_of_unit_costs (rs : List FrameAnalysisResult) (h : rs ≠ []) :
    (∀ r ∈ rs,
        r.estimatedRepairCost.min ≤ (combineImageResults rs).estimatedRepairCost.min ∧
        r.estimatedRepairCost.max ≤ (combineImageResults rs).estimatedRepairCost.max ∧
        r.estimatedRepairCost.min ≤ (combineFrameResults rs).estimatedRepairCost.min ∧
        r.estimatedRepairCost.max ≤ (combineFrameResults rs).estimatedRepairCost.max) ∧
    (∃ r ∈ rs, (combineImageResults rs).estimatedRepairCost.min = r.estimatedRepairCost.min) ∧
    (∃ r ∈ rs, (combineImageResults rs).estimatedRepairCost.max = r.estimatedRepairCost.max) ∧
    (∃ r ∈ rs, (combineFrameResults rs).estimatedRepairCost.min = r.estimatedRepairCost.min) ∧
    (∃ r ∈ rs, (combineFrameResults rs).estimatedRepairCost.max = r.estimatedRepairCost.max) := by
  refine ⟨?_, ?_, ?_, ?_, ?_⟩
  · intro r hr
    exact ⟨le_jsMax_map (fun f => f.estimatedRepairCost.min) rs r hr,
      le_jsMax_map (fun f => f.estimatedRepairCost.max) rs r hr,
      le_jsMax_map (fun f => f.estimatedRepairCost.min) rs r hr,
      le_jsMax_map (fun f => f.estimatedRepairCost.max) rs r hr⟩
  · exact exists_jsMax_map (fun f => f.estimatedRepairCost.min) rs h
  · exact exists_jsMax_map (fun f => f.estimatedRepairCost.max) rs h
  · exact exists_jsMax_map (fun f => f.estimatedRepairCost.min) rs h
  · exact exists_jsMax_map (fun f => f.estimatedRepairCost.max) rs h

/-- Witness for C1 at the spec's example: units with cost minima 5000 and
25000 and maxima 25000 and 100000 combine to exactly the range 25000-100000
(max of mins, max of maxes — not the sum, not the average). -/
theorem C1_witness :
    ([exUnitA, exUnitB] : List FrameAnalysisResult) ≠ [] ∧
    ((∀ r ∈ ([exUnitA, exUnitB] : List FrameAnalysisResult),
        r.estimatedRepairCost.min
          ≤ (combineImageResults [exUnitA, exUnitB]).estimatedRepairCost.min ∧
        r.estimatedRepairCost.max
          ≤ (combineImageResults [exUnitA, exUnitB]).estimatedRepairCost.max ∧
        r.estimatedRepairCost.min
          ≤ (combineFrameResults [exUnitA, exUnitB]).estimatedRepairCost.min ∧
        r.estimatedRepairCost.max
          ≤ (combineFrameResults [exUnitA, exUnitB]).estimatedRepairCost.max) ∧
     (∃ r ∈ ([exUnitA, exUnitB] : List FrameAnalysisResult),
        (combineImageResults [exUnitA, exUnitB]).estimatedRepairCost.min
          = r.estimatedRepairCost.min) ∧
     (∃ r ∈ ([exUnitA, exUnitB] : List FrameAnalysisResult),
        (combineImageResults [exUnitA, exUnitB]).estimatedRepairCost.max
          = r.estimatedRepairCost.max) ∧
     (∃ r ∈ ([exUnitA, exUnitB] : List FrameAnalysisResult),
        (combineFrameResults [exUnitA, exUnitB]).estimatedRepairCost.min
          = r.estimatedRepairCost.min) ∧
     (∃ r ∈ ([exUnitA, exUnitB] : List FrameAnalysisResult),
        (combineFrameResults [exUnitA, exUnitB]).estimatedRepairCost.max
          = r.estimatedRepairCost.max)) ∧
    (combineImageResults [exUnitA, exUnitB]).estimatedRepairCost.min = 25000 ∧
    (combineImageResults [exUnitA, exUnitB]).estimatedRepairCost.max = 100000 ∧
    (combineFrameResults [exUnitA, exUnitB]).estimatedRepairCost.min = 25000 ∧
    (combineFrameResults [exUnitA, exUnitB]).estimatedRepairCost.max = 100000 :=
  ⟨by decide, C1_combined_cost_is_max_of_unit_costs [exUnitA, exUnitB] (by decide),
   by decide, by decide, by decide, by decide⟩

/-- C9: on the same input the multi-image aggregator and the video-frame
aggregator produce identical values on every output field except the
synthesized summary text. -/
theorem C9_combiners_extensionally_equal (rs : List FrameAnalysisResult) :
    (combineImageResults rs).totalFramesAnalyzed = (combineFrameResults rs).totalFramesAnalyzed ∧
    (combineImageResults rs).framesWithDamage = (combineFrameResults rs).framesWithDamage ∧
    (combineImageResults rs).overallSeverity = (combineFrameResults rs).overallSeverity ∧
    (combineImageResults rs).averageConfidence = (combineFrameResults rs).averageConfidence ∧
    (combineImageResults rs).allDamages = (combineFrameResults rs).allDamages ∧
    (combineImageResults rs).uniqueDamageTypes = (combineFrameResults rs).uniqueDamageTypes ∧
    (combineImageResults rs).affectedAreas = (combineFrameResults rs).affectedAreas ∧
    (combineImageResults rs).estimatedRepairCost = (combineFrameResults rs).estimatedRepairCost ∧
    (combineImageResults rs).recommendations = (combineFrameResults rs).recommendations ∧
    (combineImageResults rs).frameResults = (combineFrameResults rs).frameResults :=
  ⟨rfl, rfl, rfl, rfl, rfl, rfl, rfl, rfl, rfl, rfl⟩

/-- C10: when every unit's cost range is consistent (min at most max), the
combined range is consistent as well; equivalently, an inverted combined
range requires an inverted unit range. -/
theorem C10_combined_cost_range_consistent (rs : List FrameAnalysisResult) (h : rs ≠ [])
    (h2 : ∀ r ∈ rs, r.estimatedRepairCost.min ≤ r.estimatedRepairCost.max) :
    (combineImageResults rs).estimatedRepairCost.min
      ≤ (combineImageResults rs).estimatedRepairCost.max ∧
    (combineFrameResults rs).estimatedRepairCost.min
      ≤ (combineFrameResults rs).estimatedRepairCost.max := by
  rcases exists_jsMax_map (fun f => f.estimatedRepairCost.min) rs h with ⟨r, hr, heq⟩
  have hle : jsMax (rs.map fun f => f.estimatedRepairCost.min)
      ≤ jsMax (rs.map fun f => f.estimatedRepairCost.max) := by
    rw [heq]
    exact le_trans (h2 r hr) (le_jsMax_map (fun f => f.estimatedRepairCost.max) rs r hr)
  exact ⟨hle, hle⟩

/-- Witness for C10 at concrete consistent unit ranges. -/
theorem C10_witness :
    ([exUnitA, exUnitB] : List FrameAnalysisResult) ≠ [] ∧
    (∀ r ∈ ([exUnitA, exUnitB] : List FrameAnalysisResult),
      r.estimatedRepairCost.min ≤ r.estimatedRepairCost.max) ∧
    ((combineImageResults [exUnitA, exUnitB]).estimatedRepairCost.min
      ≤ (combineImageResults [exUnitA, exUnitB]).estimatedRepairCost.max ∧
     (combineFrameResults [exUnitA, exUnitB]).estimatedRepairCost.min
      ≤ (combineFrameResults [exUnitA, exUnitB]).estimatedRepairCost.max) :=
  ⟨by decide, by decide,
   C10_combined_cost_range_consistent [exUnitA, exUnitB] (by decide) (by decide)⟩

/-! Permutation invariance of the severity fold. -/

/-- The `overallSeverity` field of the image combiner is the severity fold
over the mapped severities. -/
theorem combine_overallSeverity_eq (rs : List FrameAnalysisResult) :
    (combineImageResults rs).overallSeverity
      = (rs.map fun r => r.overallSeverity).foldl sevStep Severity.none :=
  sevFold_over_results rs

theorem severityOrder_le_of_fold (l l' : List Severity)
    (hsub : ∀ s ∈ l, s ∈ l') :
    severityOrder (l.foldl sevStep Severity.none)
      ≤ severityOrder (l'.foldl sevStep Severity.none) := by
  rcases sevFold_eq_or_mem l Severity.none with h0 | hm
  · rw [h0]
    exact Nat.zero_le _
  · exact le_sevFold_of_mem l' Severity.none _ (hsub _ hm)

theorem sevFold_perm_invariant (l l' : List Severity) (hp : l.Perm l') :
    l.foldl sevStep Severity.none = l'.foldl sevStep Severity.none := by
  apply severityOrder_inj
  apply Nat.le_antisymm
  · exact severityOrder_le_of_fold l l' fun s hs => hp.mem_iff.mp hs
  · exact severityOrder_le_of_fold l' l fun s hs => hp.mem_iff.mpr hs

/-- C2: the combined report's overall severity is the maximum of the units'
severities under the order None < Minor < Moderate < Severe — it bounds every
unit's severity, is attained by some unit, and is independent of the input
order; the frame aggregator computes the same value. -/
theorem C2_overall_severity_is_max (rs : List FrameAnalysisResult) (h : rs ≠ []) :
    (∀ r ∈ rs, severityOrder r.overallSeverity
        ≤ severityOrder (combineImageResults rs).overallSeverity) ∧
    (∃ r ∈ rs, (combineImageResults rs).overallSeverity = r.overallSeverity) ∧
    (∀ rs' : List FrameAnalysisResult, rs.Perm rs' →
        (combineImageResults rs').overallSeverity
          = (combineImageResults rs).overallSeverity) ∧
    (combineFrameResults rs).overallSeverity = (combineImageResults rs).overallSeverity := by
  refine ⟨?_, ?_, ?_, rfl⟩
  · intro r hr
    rw [combine_overallSeverity_eq]
    exact le_sevFold_of_mem _ Severity.none _
      (List.mem_map_of_mem (fun r => r.overallSeverity) hr)
  · rcases sevFold_eq_or_mem (rs.map fun r => r.overallSeverity) Severity.none with h0 | hm
    · cases rs with
      | nil => exact absurd rfl h
      | cons r0 rs' =>
        refine ⟨r0, List.mem_cons_self r0 rs', ?_⟩
        have hle := le_sevFold_of_mem ((r0 :: rs').map fun r => r.overallSeverity)
          Severity.none r0.overallSeverity
          (List.mem_map_of_mem (fun r => r.overallSeverity) (List.mem_cons_self r0 rs'))
        rw [h0] at hle
        have hzero : severityOrder r0.overallSeverity = 0 := Nat.le_zero.mp hle
        have : r0.overallSeverity = Severity.none :=
          severityOrder_inj _ _ (by rw [hzero]; rfl)
        rw [combine_overallSeverity_eq, h0, this]
    · rcases List.mem_map.mp hm with ⟨r, hr, heq⟩
      exact ⟨r, hr, by rw [combine_overallSeverity_eq, ← heq]⟩
  · intro rs' hp
    rw [combine_overallSeverity_eq, combine_overallSeverity_eq]
    exact sevFold_perm_invariant _ _ (hp.symm.map fun r => r.overallSeverity)

/-- Witness for C2 at a concrete two-unit batch with severities Minor and
Severe: the combined severity is Severe. -/
theorem C2_witness :
    ([exUnitA, exUnitB] : List FrameAnalysisResult) ≠ [] ∧
    ((∀ r ∈ ([exUnitA, exUnitB] : List FrameAnalysisResult),
        severityOrder r.overallSeverity
          ≤ severityOrder (combineImageResults [exUnitA, exUnitB]).overallSeverity) ∧
     (∃ r ∈ ([exUnitA, exUnitB] : List FrameAnalysisResult),
        (combineImageResults [exUnitA, exUnitB]).overallSeverity = r.overallSeverity) ∧
     (∀ rs' : List FrameAnalysisResult,
        ([exUnitA, exUnitB] : List FrameAnalysisResult).Perm rs' →
        (combineImageResults rs').overallSeverity
          = (combineImageResults [exUnitA, exUnitB]).overallSeverity) ∧
     (combineFrameResults [exUnitA, exUnitB]).overallSeverity
       = (combineImageResults [exUnitA, exUnitB]).overallSeverity) ∧
    (combineImageResults [exUnitA, exUnitB]).overallSeverity = Severity.severe :=
  ⟨by decide, C2_overall_severity_is_max [exUnitA, exUnitB] (by decide), by decide⟩

/-- C3 (amended): the combined report's `allDamages` length equals the sum of
the per-unit observation counts, and each observation is tagged with the
`frameIndex` of the unit it came from — a valid index into the originally
submitted batch (the orchestrator stamps each pushed unit with its original
position, which is below the batch length). The tagged index is a valid index
into the aggregator's own input sequence only when every unit's stored index
is below that sequence's length — in particular when no unit failed. -/
theorem C3_observation_flattening (rs : List FrameAnalysisResult) (h : rs ≠ []) :
    (combineImageResults rs).allDamages.length = (rs.map fun r => r.damages.length).sum ∧
    (∀ o ∈ (combineImageResults rs).allDamages, ∃ r ∈ rs, o.frameIndex = r.frameIndex) ∧
    ((∀ r ∈ rs, r.frameIndex < rs.length) →
      ∀ o ∈ (combineImageResults rs).allDamages, o.frameIndex < rs.length) ∧
    (∀ (images : List String) (ocs : List CallOutcome),
      ∀ r ∈ successResults images ocs, r.frameIndex < ocs.length) := by
  refine ⟨allDamages_length rs, fun o ho => allDamages_mem rs o ho, ?_, ?_⟩
  · intro hb o ho
    rcases allDamages_mem rs o ho with ⟨r, hr, heq⟩
    rw [heq]
    exact hb r hr
  · intro images ocs r hr
    have h2 := successResultsFrom_frameIndex_lt images ocs 0 r hr
    simpa using h2

/-- Counterexample to C3 as stated: a reachable aggregator input — the batch
of two images whose first unit fails at the Analysis Client — has length 1,
yet its only observation is tagged with unit index 1, which is not a valid
index into that input sequence. -/
theorem C3_counterexample :
    (successResults ["a", "b"] [CallOutcome.invokeError, CallOutcome.success cData]).length
      = 1 ∧
    ((combineImageResults (successResults ["a", "b"]
        [CallOutcome.invokeError, CallOutcome.success cData])).allDamages.map
        fun o => o.frameIndex) = [1] ∧
    ¬ (∀ o ∈ (combineImageResults (successResults ["a", "b"]
          [CallOutcome.invokeError, CallOutcome.success cData])).allDamages,
        o.frameIndex < (successResults ["a", "b"]
          [CallOutcome.invokeError, CallOutcome.success cData]).length) :=
  ⟨by decide, by decide, by decide⟩

/-- Witness for C3 (amended) at a concrete two-unit batch holding one
observation in total, with stored unit indices 0 and 1. -/
theorem C3_witness :
    ([exUnitA, exUnitB] : List FrameAnalysisResult) ≠ [] ∧
    ((combineImageResults [exUnitA, exUnitB]).allDamages.length
        = (([exUnitA, exUnitB] : List FrameAnalysisResult).map
            fun r => r.damages.length).sum ∧
     (∀ o ∈ (combineImageResults [exUnitA, exUnitB]).allDamages,
        ∃ r ∈ ([exUnitA, exUnitB] : List FrameAnalysisResult),
          o.frameIndex = r.frameIndex) ∧
     ((∀ r ∈ ([exUnitA, exUnitB] : List FrameAnalysisResult),
        r.frameIndex < ([exUnitA, exUnitB] : List FrameAnalysisResult).length) →
      ∀ o ∈ (combineImageResults [exUnitA, exUnitB]).allDamages,
        o.frameIndex < ([exUnitA, exUnitB] : List FrameAnalysisResult).length) ∧
     (∀ (images : List String) (ocs : List CallOutcome),
      ∀ r ∈ successResults images ocs, r.frameIndex < ocs.length)) ∧
    (combineImageResults [exUnitA, exUnitB]).allDamages.length = 1 :=
  ⟨by decide, C3_observation_flattening [exUnitA, exUnitB] (by decide), by decide⟩

/-- Images for the C4 witness batch. -/
def exImagesC4 : List String := ["a", "b"]

/-- Outcomes for the C4 witness batch: a data-level failure then a
transport-level failure. -/
def exOcsC4 : List CallOutcome := [CallOutcome.dataError, CallOutcome.invokeError]

/-- C4 (amended): after each unit the currently-analyzing-unit counter is
updated to the unit's 1-based position; the progress percentage is updated to
(units attempted so far)/N * 100 after every unit that does not fail at the
invoke step (successes and units whose response body carries an error
payload), but a unit failing at the invoke step hits `continue` before the
progress update, so the percentage keeps its previous value there. -/
theorem C4_progress_and_counter (images : List String) (ocs : List CallOutcome)
    (h : ocs.length = images.length) (j : Nat) (hj : j < ocs.length) :
    ((orchTrace images ocs).getD j st0).currentAnalyzingFrame = j + 1 ∧
    (ocs.getD j CallOutcome.invokeError ≠ CallOutcome.invokeError →
      ((orchTrace images ocs).getD j st0).analysisProgress
        = progressPct images.length j) ∧
    (ocs.getD j CallOutcome.invokeError = CallOutcome.invokeError →
      ((orchTrace images ocs).getD j st0).analysisProgress
        = if j = 0 then 0
          else ((orchTrace images ocs).getD (j - 1) st0).analysisProgress) := by
  refine ⟨?_, ?_, ?_⟩
  · have h1 := orchTraceFrom_getD_current images.length images ocs 0 st0 j hj
    simpa [orchTrace] using h1
  · intro hoc
    have h1 := orchTraceFrom_getD_progress images.length images ocs 0 st0 j hj hoc
    simpa [orchTrace] using h1
  · intro hoc
    cases j with
    | zero =>
      have h1 := orchTraceFrom_getD_progress_invoke_zero images.length images ocs 0 st0 hj hoc
      simpa [orchTrace, st0] using h1
    | succ k =>
      have h1 := orchTraceFrom_getD_progress_invoke_succ images.length images ocs 0 st0 k hj hoc
      simpa [orchTrace] using h1

/-- Counterexample to C4 as stated: in a batch of one image whose unit fails
at the invoke step, the progress after the last (and only) unit is still 0,
not the 100 percent that (units attempted)/N would give. -/
theorem C4_counterexample :
    ((orchTrace ["img"] [CallOutcome.invokeError]).getD 0 st0).analysisProgress = 0 ∧
    progressPct 1 0 = 100 ∧
    (0 : ℚ) ≠ 100 :=
  ⟨rfl, by norm_num [progressPct], by norm_num⟩

/-- Witness for C4 (amended) at a two-unit batch whose second unit fails at
the invoke step, inspected after that second unit. -/
theorem C4_witness :
    exOcsC4.length = exImagesC4.length ∧ 1 < exOcsC4.length ∧
    (((orchTrace exImagesC4 exOcsC4).getD 1 st0).currentAnalyzingFrame = 1 + 1 ∧
     (exOcsC4.getD 1 CallOutcome.invokeError ≠ CallOutcome.invokeError →
       ((orchTrace exImagesC4 exOcsC4).getD 1 st0).analysisProgress
         = progressPct exImagesC4.length 1) ∧
     (exOcsC4.getD 1 CallOutcome.invokeError = CallOutcome.invokeError →
       ((orchTrace exImagesC4 exOcsC4).getD 1 st0).analysisProgress
         = if (1 : Nat) = 0 then 0
           else ((orchTrace exImagesC4 exOcsC4).getD (1 - 1) st0).analysisProgress)) :=
  ⟨by decide, by decide,
   C4_progress_and_counter exImagesC4 exOcsC4 (by decide) 1 (by decide)⟩

/-- C5: when some units of a batch fail at the Analysis Client, the
orchestrator skips them and continues; the aggregator receives exactly the
succeeded results, each keeping its original position index, and the combined
report's total-units field equals the number of succeeded units. -/
theorem C5_partial_failure_tolerance (images : List String) (ocs : List CallOutcome)
    (h : ocs.length = images.length) (h2 : successResults images ocs ≠ []) :
    analyzeAllImages images ocs
      = some (combineImageResults (successResults images ocs)) ∧
    analyzeAllFrames images ocs
      = some (combineFrameResults (successResults images ocs)) ∧
    (successResults images ocs).map (fun r => r.frameIndex) = successIndices ocs ∧
    (combineImageResults (successResults images ocs)).totalFramesAnalyzed
      = (successResults images ocs).length := by
  have hacc : (orchFinalFrom images.length images 0 st0 ocs).acc
      = successResults images ocs := by
    have h1 := orchFinalFrom_acc images.length images ocs 0 st0
    simpa [st0, successResults] using h1
  have h3 : (successResults images ocs).isEmpty = false := by
    cases hsr : successResults images ocs with
    | nil => exact absurd hsr h2
    | cons a l => rfl
  refine ⟨?_, ?_, ?_, rfl⟩
  · simp [analyzeAllImages, hacc, h3]
  · simp [analyzeAllFrames, hacc, h3]
  · have h4 := successResultsFrom_map_frameIndex images ocs 0
    simpa [successResults, successIndices] using h4

/-- Witness for C5 at the spec's scenario: a batch of four images where units
1 and 3 fail yields two unit contexts with preserved indices 0 and 2, and a
combined report with total-units 2. -/
theorem C5_witness :
    exOcs4.length = exImages4.length ∧ successResults exImages4 exOcs4 ≠ [] ∧
    (analyzeAllImages exImages4 exOcs4
      = some (combineImageResults (successResults exImages4 exOcs4)) ∧
     analyzeAllFrames exImages4 exOcs4
      = some (combineFrameResults (successResults exImages4 exOcs4)) ∧
     (successResults exImages4 exOcs4).map (fun r => r.frameIndex)
      = successIndices exOcs4 ∧
     (combineImageResults (successResults exImages4 exOcs4)).totalFramesAnalyzed
      = (successResults exImages4 exOcs4).length) ∧
    (successResults exImages4 exOcs4).map (fun r => r.frameIndex) = [0, 2] ∧
    (combineImageResults (successResults exImages4 exOcs4)).totalFramesAnalyzed = 2 :=
  ⟨by decide, by decide,
   C5_partial_failure_tolerance exImages4 exOcs4 (by decide) (by decide),
   by decide, by decide⟩

/-- C6: if every unit of a batch fails, the accumulated result list is empty,
so the orchestrator takes the batch-level failure branch: the aggregator is
never invoked and no combined report is produced (the combined-result state
keeps the `null` written at loop start; the failure toast is the only
observable outcome). -/
theorem C6_total_failure_no_report (images : List String) (ocs : List CallOutcome)
    (h : ∀ oc ∈ ocs, oc.isSuccess = false) :
    (orchFinalFrom images.length images 0 st0 ocs).acc = [] ∧
    analyzeAllImages images ocs = none ∧
    analyzeAllFrames images ocs = none := by
  have hacc : (orchFinalFrom images.length images 0 st0 ocs).acc = [] := by
    have h1 := orchFinalFrom_acc images.length images ocs 0 st0
    rw [successResultsFrom_of_no_success images ocs 0 h] at h1
    simpa [st0] using h1
  refine ⟨hacc, ?_, ?_⟩
  · simp [analyzeAllImages, hacc]
  · simp [analyzeAllFrames, hacc]

/-- Witness for C6 at a concrete batch of two images where both units fail
(one transport error, one error payload). -/
theorem C6_witness :
    (∀ oc ∈ ([CallOutcome.invokeError, CallOutcome.dataError] : List CallOutcome),
      oc.isSuccess = false) ∧
    ((orchFinalFrom (["a", "b"] : List String).length ["a", "b"] 0 st0
        [CallOutcome.invokeError, CallOutcome.dataError]).acc = [] ∧
     analyzeAllImages ["a", "b"] [CallOutcome.invokeError, CallOutcome.dataError] = none ∧
     analyzeAllFrames ["a", "b"] [CallOutcome.invokeError, CallOutcome.dataError] = none) :=
  ⟨by decide,
   C6_total_failure_no_report ["a", "b"]
     [CallOutcome.invokeError, CallOutcome.dataError] (by decide)⟩

/-- C7: when the AI success-response body is not parseable JSON, the handler
does not raise: it returns the fixed fallback result with confidence 0, no
vehicle, no damage, severity None, empty damages and affected areas, an
all-zero cost range, and the generic could-not-process summary text. -/
theorem C7_malformed_body_fallback :
    parseAnalysisResult none = parseFallbackResult ∧
    parseFallbackResult.confidenceScore = 0 ∧
    parseFallbackResult.hasVehicle = false ∧
    parseFallbackResult.hasDamage = false ∧
    parseFallbackResult.overallSeverity = Severity.none ∧
    parseFallbackResult.damages = [] ∧
    parseFallbackResult.affectedAreas = [] ∧
    parseFallbackResult.estimatedRepairCost.min = 0 ∧
    parseFallbackResult.estimatedRepairCost.max = 0 ∧
    parseFallbackResult.summary
      = "Could not process the image. Please upload a clear image." :=
  ⟨rfl, rfl, rfl, rfl, rfl, rfl, rfl, rfl, rfl, rfl⟩

/-- C8 divergence: the fallback result substituted for a malformed AI
response body carries currency "USD", not the policy-fixed "INR" that every
other payload in `analyze-damage/index.ts` uses. -/
theorem C8_fallback_currency_is_usd :
    (parseAnalysisResult none).estimatedRepairCost.currency = "USD" ∧
    (parseAnalysisResult none).estimatedRepairCost.currency ≠ "INR" :=
  ⟨rfl, by decide⟩
